import Mathlib

/-!
Verification of the `createEnv` construction pipeline of the `process-venv`
package (source: `src/index.ts`, current revision in `src/unnamed/part_000`).

The embedding models JavaScript objects as association lists of string keys
(`Obj α`), with `setKey` mirroring property assignment (overwrite in place,
else append, matching JS insertion-order semantics), `assignObj` mirroring
`Object.assign`/object spread, and `eraseKey` mirroring `delete`.  The global
environment table (`process.env`) is threaded explicitly as a value of type
`Obj String`, and the dotenv loader is represented by its output
(`loaderParsed : Option (Obj String)`, the `config(...).parsed` object), since
the loader itself is an external collaborator.
-/

namespace ProcessVenv

/-- Keys of environment objects are strings. -/
abbrev Key := String

/-- A validated (coerced) environment value: the library's own tests exercise
string, number and boolean outputs of the schema validators. -/
inductive EnvValue where
  | vStr (s : String)
  | vInt (n : Int)
  | vBool (b : Bool)
deriving DecidableEq, Repr

/-- The JavaScript `String(x)` conversion used by the projection stage
(`process.env[key] = String(env[key])`). -/
def EnvValue.jsString : EnvValue → String
  | .vStr s => s
  | .vInt n => toString n
  | .vBool b => if b then "true" else "false"

/-- A JavaScript object viewed as an ordered association list. -/
abbrev Obj (α : Type) := List (Key × α)

/-- Property read: first entry with the requested key (JS objects have at most
one entry per key, so this is the unique entry when `NodupKeys` holds). -/
def lookupKey {α : Type} : Obj α → Key → Option α
  | [], _ => none
  | (k', v) :: rest, k => if k' = k then some v else lookupKey rest k

/-- Property assignment `o[k] = v`: overwrite the existing entry in place,
otherwise append a fresh entry (JS insertion-order semantics). -/
def setKey {α : Type} : Obj α → Key → α → Obj α
  | [], k, v => [(k, v)]
  | (k', v') :: rest, k, v =>
    if k' = k then (k, v) :: rest else (k', v') :: setKey rest k v

/-- Property deletion `delete o[k]`. -/
def eraseKey {α : Type} : Obj α → Key → Obj α
  | [], _ => []
  | (k', v) :: rest, k =>
    if k' = k then eraseKey rest k else (k', v) :: eraseKey rest k

/-- `Object.assign(target, src)` (also `\x7b ...target, ...src \x7d`): copy the
entries of `src` into `target` in order, overwriting existing keys. -/
def assignObj {α : Type} (target src : Obj α) : Obj α :=
  src.foldl (fun acc p => setKey acc p.1 p.2) target

/-- Well-formedness of a JS object: at most one entry per key.  Guaranteed by
construction for every object the pipeline builds. -/
def NodupKeys {α : Type} (m : Obj α) : Prop :=
  (m.map Prod.fst).Nodup

instance {α : Type} (m : Obj α) : Decidable (NodupKeys m) := by
  unfold NodupKeys; infer_instance

/-- A structured validation issue record (message and path), as exchanged by
the Standard Schema validation contract. -/
structure Issue where
  message : String
  path : List String
deriving DecidableEq, Repr

/-- The single error kind of the library (`errors.ts`): a message plus the
original cause where applicable (the issue list for validation failures,
empty for guard violations). -/
structure InvalidEnvironmentError where
  message : String
  cause : List Issue
deriving DecidableEq, Repr

/-- Outcome of one field validator applied to one raw value. -/
inductive FieldOutcome where
  | value (v : EnvValue)
  | omitted
  | invalid (issue : Issue)

/-- A field validator: accepts the raw value for its key (a string, or absent)
and produces a coerced value, an omission, or a validation issue. -/
abbrev FieldValidator := Option String → FieldOutcome

/-- Result of validating a full raw environment: a typed value mapping on
success, or the ordered issue list on failure. -/
inductive ValidationResult where
  | success (value : Obj EnvValue)
  | failure (issues : List Issue)

/-- Modelled from the spec: the dictionary walk inside `parseWithDictionary`
(module `./standard`, not present under `src/`).  For each schema field in
order, run its validator against the raw value for that key; collect the
produced values and the issues, both in schema order. -/
def collectParse : Obj FieldValidator → Obj String → Obj EnvValue × List Issue
  | [], _ => ([], [])
  | (k, f) :: rest, raw =>
    let tail := collectParse rest raw
    match f (lookupKey raw k) with
    | .value v => ((k, v) :: tail.1, tail.2)
    | .omitted => tail
    | .invalid i => (tail.1, i :: tail.2)

/-- Modelled from the spec: `parseWithDictionary` (module `./standard`, not
present under `src/`).  Validate every schema field against the raw
environment; if any field produced an issue, fail with the full issue list and
adopt none of the successfully validated fields, otherwise succeed with the
mapping of produced values. -/
def parseWithDictionary (schema : Obj FieldValidator) (raw : Obj String) :
    ValidationResult :=
  let r := collectParse schema raw
  if r.2.isEmpty then .success r.1 else .failure r.2

/-- The options record accepted by `createEnv` (`typings.ts`), restricted to
the fields the pipeline logic reads.  `path`, `encoding` and `quiet` only
parameterise the external dotenv loader, which this embedding represents by
its output, so they do not appear here.  `extendsArr` is the `extends` option
(`extends` is a reserved word in Lean). -/
structure CreateEnvOptions where
  schema : Obj FieldValidator
  createFinalSchema : Option (Obj FieldValidator → Obj String → ValidationResult)
  extendsArr : List (Obj EnvValue)
  shared : List Key

/-- The validation dispatch of `createEnv`:
`options.createFinalSchema?.(schema)['~standard'].validate(rawEnv) ??
parseWithDictionary(schema, rawEnv)`. -/
def runValidation (opts : CreateEnvOptions) (rawEnv : Obj String) :
    ValidationResult :=
  match opts.createFinalSchema with
  | some f => f opts.schema rawEnv
  | none => parseWithDictionary opts.schema rawEnv

/-- The raw-merge stage of `createEnv` (source lines 35-52): use the explicit
`initialEnv` verbatim when supplied; otherwise start from a copy of the
ambient `process.env` and spread the loader's parsed output over it
(`rawEnv = \x7b ...rawEnv, ...output.parsed \x7d`). -/
def rawEnvOf (initialEnv : Option (Obj String)) (procEnv : Obj String)
    (loaderParsed : Option (Obj String)) : Obj String :=
  match initialEnv with
  | some e => e
  | none =>
    match loaderParsed with
    | some p => assignObj procEnv p
    | none => procEnv

/-- The extension-merge stage of `createEnv` (source lines 68-73):
`Object.assign((options.extends ?? []).reduce((acc, curr) =>
Object.assign(acc, curr), \x7b\x7d), parsed.value)`. -/
def combinedEnv (extendsArr : List (Obj EnvValue)) (value : Obj EnvValue) :
    Obj EnvValue :=
  assignObj (extendsArr.foldl (fun acc curr => assignObj acc curr) []) value

/-- The environment-projection stage of `createEnv` (source lines 75-81):
for each key of the combined environment in order, either mirror its string
form into `process.env` (shared key) or delete it from `process.env`. -/
def projectShared (shared : List Key) (env : Obj EnvValue)
    (procEnv : Obj String) : Obj String :=
  env.foldl
    (fun pe p =>
      if shared.contains p.1 then setKey pe p.1 p.2.jsString
      else eraseKey pe p.1)
    procEnv

/-- The successful result of one `createEnv` invocation: the combined
environment (the Proxy target) and the global table after projection. -/
structure CreateEnvOk where
  env : Obj EnvValue
  procEnv : Obj String
deriving Repr

/-- The pipeline of `createEnv` after the raw environment is fixed: validate,
then on success build the combined environment and project the shared keys;
on failure throw `InvalidEnvironmentError` with the issue list as cause
(source lines 54-81). -/
def createEnvFromRaw (opts : CreateEnvOptions) (rawEnv : Obj String)
    (procEnv : Obj String) : Except InvalidEnvironmentError CreateEnvOk :=
  match runValidation opts rawEnv with
  | .failure issues =>
    .error { message := "Invalid environment variables detected.",
             cause := issues }
  | .success value =>
    .ok { env := combinedEnv opts.extendsArr value,
          procEnv :=
            projectShared opts.shared (combinedEnv opts.extendsArr value)
              procEnv }

/-- `createEnv(options, initialEnv)` as a function of the ambient global
table and the loader's output.  A thrown `InvalidEnvironmentError` is the
`.error` case. -/
def createEnv (opts : CreateEnvOptions) (initialEnv : Option (Obj String))
    (procEnv : Obj String) (loaderParsed : Option (Obj String)) :
    Except InvalidEnvironmentError CreateEnvOk :=
  createEnvFromRaw opts (rawEnvOf initialEnv procEnv loaderParsed) procEnv

/-- Message of the undefined-key read guard (source line 87). -/
def accessErrorMessage (k : Key) : String :=
  "Attempted to access an invalid environment variable: \"" ++
    (k ++ "\". This variable is not defined in your schema.")

/-- Message of the write guard (source line 94). -/
def setErrorMessage (k : Key) : String :=
  "Attempted to set environment variable: \"" ++
    (k ++ "\". Environment variables are immutable.")

/-- Message of the delete guard (source line 99). -/
def deleteErrorMessage (k : Key) : String :=
  "Attempted to delete environment variable: \"" ++
    (k ++ "\". Environment variables are immutable.")

/-- The Proxy `get` trap (source lines 84-91): reading a string property that
is not a key of the target throws; otherwise the stored value is returned
unchanged. -/
def containerGet (env : Obj EnvValue) (k : Key) :
    Except InvalidEnvironmentError EnvValue :=
  match lookupKey env k with
  | some v => .ok v
  | none => .error { message := accessErrorMessage k, cause := [] }

/-- The Proxy `set` trap (source lines 92-96): every write throws, so no
updated object is ever produced. -/
def containerSet (_target : Obj EnvValue) (k : Key) (_v : EnvValue) :
    Except InvalidEnvironmentError (Obj EnvValue) :=
  .error { message := setErrorMessage k, cause := [] }

/-- The Proxy `deleteProperty` trap (source lines 97-101): every delete
throws, so no updated object is ever produced. -/
def containerDelete (_target : Obj EnvValue) (k : Key) :
    Except InvalidEnvironmentError (Obj EnvValue) :=
  .error { message := deleteErrorMessage k, cause := [] }

/-- The container state after a mutation attempt: the updated object if the
operation returned one, else the untouched original. -/
def afterMutation (env : Obj EnvValue)
    (res : Except InvalidEnvironmentError (Obj EnvValue)) : Obj EnvValue :=
  match res with
  | .ok e => e
  | .error _ => env

/-- Spec-side restatement of the extension-merge algorithm, following the
spec's words: start from an empty accumulator, copy each finalized
container's keys in array order (later containers overwriting earlier ones),
then copy the current validated value's keys over everything. -/
def specCombinedEnvironment (extendsArr : List (Obj EnvValue))
    (validated : Obj EnvValue) : Obj EnvValue :=
  assignObj (extendsArr.foldl (fun acc c => assignObj acc c) []) validated

/-- The key resolution induced by an extends array: later containers override
earlier ones. -/
def extLookup : List (Obj EnvValue) → Key → Option EnvValue
  | [], _ => none
  | c :: rest, k => (extLookup rest k).or (lookupKey c k)

/-! ### Concrete validator fixtures

Field validators are caller-supplied capabilities (the validation contract);
these two model the zod fields exercised by the repository's own test suite:
a string field with a default, and a required string field. -/

/-- A caller-supplied field validator for a string key with a default: echoes
the raw string, and produces the default value when the key is absent. -/
def defaultedField (d : String) : FieldValidator := fun raw =>
  match raw with
  | some s => .value (.vStr s)
  | none => .value (.vStr d)

/-- A caller-supplied field validator for a required string key: an absent
raw value is a validation issue. -/
def requiredField (k : Key) : FieldValidator := fun raw =>
  match raw with
  | some s => .value (.vStr s)
  | none => .invalid { message := "Required", path := [k] }

/-- Concrete options for exercising the extension merge: one defaulted schema
key `A`, one extended container defining `B`. -/
def c1Opts : CreateEnvOptions :=
  { schema := [("A", defaultedField "x")], createFinalSchema := none,
    extendsArr := [[("B", EnvValue.vStr "y")]], shared := [] }

/-- The result of `createEnv c1Opts (some []) [] none`. -/
def c1Res : CreateEnvOk :=
  { env := [("B", EnvValue.vStr "y"), ("A", EnvValue.vStr "x")],
    procEnv := [] }

/-- Container `A` of the precedence scenario: defines key `K` as `"a"`. -/
def c2A : Obj EnvValue := [("K", EnvValue.vStr "a")]

/-- Container `B` of the precedence scenario: defines key `K` as `"b"`. -/
def c2B : Obj EnvValue := [("K", EnvValue.vStr "b")]

/-- Options of the precedence scenario: the current schema assigns key `K`
the default `"d"`, and extends `A` then `B` in that array order. -/
def c2Opts : CreateEnvOptions :=
  { schema := [("K", defaultedField "d")], createFinalSchema := none,
    extendsArr := [c2A, c2B], shared := [] }

/-- The result of `createEnv c2Opts (some []) [] none`: the schema's own
default wins over both extended containers. -/
def c2Res : CreateEnvOk :=
  { env := [("K", EnvValue.vStr "d")], procEnv := [] }

/-- Options with a single defaulted schema key `A` and nothing shared. -/
def c3Opts : CreateEnvOptions :=
  { schema := [("A", defaultedField "x")], createFinalSchema := none,
    extendsArr := [], shared := [] }

/-- The result of `createEnv c3Opts (some []) [] none`. -/
def c3Res : CreateEnvOk :=
  { env := [("A", EnvValue.vStr "x")], procEnv := [] }

/-- Options with a single defaulted schema key `A` and nothing shared. -/
def c4Opts : CreateEnvOptions :=
  { schema := [("A", defaultedField "x")], createFinalSchema := none,
    extendsArr := [], shared := [] }

/-- The result of `createEnv c4Opts (some []) [] none`. -/
def c4Res : CreateEnvOk :=
  { env := [("A", EnvValue.vStr "x")], procEnv := [] }

/-- Options whose schema requires key `R`. -/
def c5Opts : CreateEnvOptions :=
  { schema := [("R", requiredField "R")], createFinalSchema := none,
    extendsArr := [], shared := [] }

/-- Options producing keys `X` and `Y`, of which only `X` is shared. -/
def c6Opts : CreateEnvOptions :=
  { schema := [("X", defaultedField "v"), ("Y", defaultedField "w")],
    createFinalSchema := none, extendsArr := [], shared := ["X"] }

/-- The result of `createEnv c6Opts (some []) [("Y", "old"), ("Z", "keep")]
none`: shared `X` is mirrored, non-shared `Y` is removed, foreign `Z` is
untouched. -/
def c6Res : CreateEnvOk :=
  { env := [("X", EnvValue.vStr "v"), ("Y", EnvValue.vStr "w")],
    procEnv := [("Z", "keep"), ("X", "v")] }

/-- Options with an empty schema (raw-merge scenarios). -/
def c8Opts : CreateEnvOptions :=
  { schema := [], createFinalSchema := none, extendsArr := [], shared := [] }

/-- Options producing shared key `X` (idempotence scenario). -/
def c9Opts : CreateEnvOptions :=
  { schema := [("X", defaultedField "v")], createFinalSchema := none,
    extendsArr := [], shared := ["X"] }

/-- The result of `createEnv c9Opts (some []) [("Y", "old")] none`. -/
def c9Res : CreateEnvOk :=
  { env := [("X", EnvValue.vStr "v")],
    procEnv := [("Y", "old"), ("X", "v")] }

/-- Options producing key `X` with nothing shared (frame scenario). -/
def c10Opts : CreateEnvOptions :=
  { schema := [("X", defaultedField "v")], createFinalSchema := none,
    extendsArr := [], shared := [] }

/-- The result of `createEnv c10Opts (some []) [("Z", "keep")] none`. -/
def c10Res : CreateEnvOk :=
  { env := [("X", EnvValue.vStr "v")], procEnv := [("Z", "keep")] }

/-! ### Basic laws of the object operations -/

theorem lookupKey_setKey {α : Type} (m : Obj α) (k q : Key) (v : α) :
    lookupKey (setKey m k v) q = if k = q then some v else lookupKey m q := by
  induction m with
  | nil => by_cases h : k = q <;> simp [setKey, lookupKey, h]
  | cons p rest ih =>
    obtain ⟨k', v'⟩ := p
    by_cases hk : k' = k
    · subst hk
      by_cases hq : k' = q <;> simp [setKey, lookupKey, hq]
    · by_cases hq : k' = q
      · subst hq
        have hkq : ¬ k = k' := fun h => hk h.symm
        simp [setKey, hk, lookupKey, hkq]
      · simp [setKey, hk, lookupKey, hq, ih]

theorem lookupKey_eraseKey {α : Type} (m : Obj α) (k q : Key) :
    lookupKey (eraseKey m k) q = if k = q then none else lookupKey m q := by
  induction m with
  | nil => by_cases h : k = q <;> simp [eraseKey, lookupKey, h]
  | cons p rest ih =>
    obtain ⟨k', v'⟩ := p
    by_cases hk : k' = k
    · subst hk
      by_cases hq : k' = q
      · subst hq
        simp [eraseKey, lookupKey, ih]
      · have hkq : ¬ k' = q := hq
        simp [eraseKey, lookupKey, hkq, ih]
    · by_cases hq : k' = q
      · subst hq
        have hkq : ¬ k = k' := fun h => hk h.symm
        simp [eraseKey, hk, lookupKey, hkq]
      · simp [eraseKey, hk, lookupKey, hq, ih]

theorem lookupKey_eq_none_iff {α : Type} (m : Obj α) (k : Key) :
    lookupKey m k = none ↔ k ∉ m.map Prod.fst := by
  induction m with
  | nil => simp [lookupKey]
  | cons p rest ih =>
    obtain ⟨k', v'⟩ := p
    by_cases h : k' = k
    · subst h
      simp [lookupKey]
    · have hne : ¬ k = k' := fun e => h e.symm
      simp [lookupKey, h, ih, hne]

theorem map_fst_setKey {α : Type} (m : Obj α) (k : Key) (v : α) :
    (setKey m k v).map Prod.fst =
      if (lookupKey m k).isSome then m.map Prod.fst
      else m.map Prod.fst ++ [k] := by
  induction m with
  | nil => simp [setKey, lookupKey]
  | cons p rest ih =>
    obtain ⟨k', v'⟩ := p
    by_cases h : k' = k
    · subst h
      simp [setKey, lookupKey]
    · simp only [setKey, h, if_false, lookupKey, List.map_cons, ih]
      by_cases hs : (lookupKey rest k).isSome <;> simp [hs]

theorem nodupKeys_setKey {α : Type} {m : Obj α} (k : Key) (v : α)
    (h : NodupKeys m) : NodupKeys (setKey m k v) := by
  unfold NodupKeys at *
  rw [map_fst_setKey]
  by_cases hs : (lookupKey m k).isSome
  · simpa [hs] using h
  · have hnone : lookupKey m k = none := by
      cases hl : lookupKey m k
      · rfl
      · simp [hl] at hs
    have hnm : k ∉ m.map Prod.fst := (lookupKey_eq_none_iff m k).mp hnone
    simp [hs, List.nodup_append, h, hnm]

theorem assignObj_nil {α : Type} (t : Obj α) : assignObj t [] = t := rfl

theorem assignObj_cons {α : Type} (t : Obj α) (p : Key × α) (rest : Obj α) :
    assignObj t (p :: rest) = assignObj (setKey t p.1 p.2) rest := rfl

theorem nodupKeys_assignObj {α : Type} (s : Obj α) {t : Obj α}
    (h : NodupKeys t) : NodupKeys (assignObj t s) := by
  induction s generalizing t with
  | nil => exact h
  | cons p rest ih => exact ih (nodupKeys_setKey p.1 p.2 h)

theorem nodupKeys_cons_split {α : Type} {k : Key} {v : α} {rest : Obj α}
    (h : NodupKeys ((k, v) :: rest)) :
    NodupKeys rest ∧ k ∉ rest.map Prod.fst := by
  unfold NodupKeys at h ⊢
  rw [List.map_cons, List.nodup_cons] at h
  exact ⟨h.2, h.1⟩

theorem lookupKey_assignObj {α : Type} (t s : Obj α) (q : Key)
    (hs : NodupKeys s) :
    lookupKey (assignObj t s) q = (lookupKey s q).or (lookupKey t q) := by
  induction s generalizing t with
  | nil => simp [assignObj, lookupKey]
  | cons p rest ih =>
    obtain ⟨k, v⟩ := p
    obtain ⟨hn, hmem⟩ := nodupKeys_cons_split hs
    rw [assignObj_cons, ih (setKey t k v) hn]
    by_cases hk : k = q
    · subst hk
      have hrest : lookupKey rest k = none :=
        (lookupKey_eq_none_iff rest k).mpr hmem
      simp [hrest, lookupKey, lookupKey_setKey]
    · simp [lookupKey, hk, lookupKey_setKey]

theorem nodupKeys_foldAssign (exts : List (Obj EnvValue)) {acc : Obj EnvValue}
    (h : NodupKeys acc) :
    NodupKeys (exts.foldl (fun a c => assignObj a c) acc) := by
  induction exts generalizing acc with
  | nil => exact h
  | cons c rest ih => exact ih (nodupKeys_assignObj c h)

theorem lookupKey_foldAssign (exts : List (Obj EnvValue)) (acc : Obj EnvValue)
    (q : Key) (hexts : ∀ c ∈ exts, NodupKeys c) :
    lookupKey (exts.foldl (fun a c => assignObj a c) acc) q =
      (extLookup exts q).or (lookupKey acc q) := by
  induction exts generalizing acc with
  | nil => simp [extLookup]
  | cons c rest ih =>
    have hc : NodupKeys c := hexts c (List.mem_cons_self c rest)
    have hrest : ∀ d ∈ rest, NodupKeys d := fun d hd =>
      hexts d (List.mem_cons_of_mem c hd)
    show lookupKey (rest.foldl (fun a c => assignObj a c) (assignObj acc c)) q = _
    rw [ih (assignObj acc c) hrest, lookupKey_assignObj acc c q hc, extLookup]
    cases extLookup rest q <;> simp [Option.or]

theorem nodupKeys_combinedEnv (exts : List (Obj EnvValue))
    (v : Obj EnvValue) : NodupKeys (combinedEnv exts v) := by
  unfold combinedEnv
  exact nodupKeys_assignObj v (nodupKeys_foldAssign exts (by simp [NodupKeys]))

theorem lookupKey_combinedEnv (exts : List (Obj EnvValue)) (v : Obj EnvValue)
    (q : Key) (hv : NodupKeys v) (hexts : ∀ c ∈ exts, NodupKeys c) :
    lookupKey (combinedEnv exts v) q =
      (lookupKey v q).or (extLookup exts q) := by
  unfold combinedEnv
  rw [lookupKey_assignObj _ _ _ hv, lookupKey_foldAssign exts [] q hexts]
  simp [lookupKey]

/-! ### Laws of the projection stage -/

theorem projectShared_nil (sh : List Key) (pe : Obj String) :
    projectShared sh [] pe = pe := rfl

theorem projectShared_cons (sh : List Key) (p : Key × EnvValue)
    (rest : Obj EnvValue) (pe : Obj String) :
    projectShared sh (p :: rest) pe =
      projectShared sh rest
        (if sh.contains p.1 then setKey pe p.1 p.2.jsString
         else eraseKey pe p.1) := rfl

theorem projectShared_lookup_of_none (sh : List Key) (env : Obj EnvValue)
    (pe : Obj String) (q : Key) (h : lookupKey env q = none) :
    lookupKey (projectShared sh env pe) q = lookupKey pe q := by
  induction env generalizing pe with
  | nil => rfl
  | cons p rest ih =>
    obtain ⟨k, v⟩ := p
    have hk : ¬ k = q := by
      intro e
      simp [lookupKey, e] at h
    have hrest : lookupKey rest q = none := by
      simpa [lookupKey, hk] using h
    rw [projectShared_cons, ih _ hrest]
    by_cases hc : k ∈ sh <;>
      simp [hc, lookupKey_setKey, lookupKey_eraseKey, hk]

theorem projectShared_lookup_of_some (sh : List Key) (env : Obj EnvValue)
    (pe : Obj String) (q : Key) (v : EnvValue) (hn : NodupKeys env)
    (h : lookupKey env q = some v) :
    lookupKey (projectShared sh env pe) q =
      if sh.contains q then some v.jsString else none := by
  induction env generalizing pe with
  | nil => simp [lookupKey] at h
  | cons p rest ih =>
    obtain ⟨k, w⟩ := p
    obtain ⟨hnr, hmem⟩ := nodupKeys_cons_split hn
    by_cases hk : k = q
    · subst hk
      have hv : w = v := by simpa [lookupKey] using h
      subst hv
      have hrest : lookupKey rest k = none :=
        (lookupKey_eq_none_iff rest k).mpr hmem
      rw [projectShared_cons, projectShared_lookup_of_none _ _ _ _ hrest]
      by_cases hc : k ∈ sh <;>
        simp [hc, lookupKey_setKey, lookupKey_eraseKey]
    · have h' : lookupKey rest q = some v := by
        simpa [lookupKey, hk] using h
      rw [projectShared_cons]
      exact ih _ hnr h'

theorem projectShared_idem (sh : List Key) (env : Obj EnvValue)
    (pe : Obj String) (q : Key) (hn : NodupKeys env) :
    lookupKey (projectShared sh env (projectShared sh env pe)) q =
      lookupKey (projectShared sh env pe) q := by
  cases h : lookupKey env q with
  | none =>
    rw [projectShared_lookup_of_none _ _ _ _ h]
  | some v =>
    rw [projectShared_lookup_of_some _ _ _ _ _ hn h,
      projectShared_lookup_of_some _ _ _ _ _ hn h]

/-! ### Laws of validation and of a successful construction -/

theorem mem_collectParse_issues (schema : Obj FieldValidator)
    (raw : Obj String) (K : Key) (f : FieldValidator) (i : Issue)
    (hmem : (K, f) ∈ schema) (hf : f (lookupKey raw K) = .invalid i) :
    i ∈ (collectParse schema raw).2 := by
  induction schema with
  | nil => cases hmem
  | cons p rest ih =>
    obtain ⟨k, g⟩ := p
    rcases List.mem_cons.mp hmem with heq | hmem'
    · injection heq with hk hg
      subst hk
      subst hg
      simp only [collectParse, hf]
      exact List.mem_cons_self i _
    · have htail := ih hmem'
      simp only [collectParse]
      cases hg : g (lookupKey raw k) with
      | value v => exact htail
      | omitted => exact htail
      | invalid j => exact List.mem_cons_of_mem j htail

theorem parseWithDictionary_invalid (schema : Obj FieldValidator)
    (raw : Obj String) (K : Key) (f : FieldValidator) (i : Issue)
    (hmem : (K, f) ∈ schema) (hf : f (lookupKey raw K) = .invalid i) :
    ∃ issues, parseWithDictionary schema raw = .failure issues ∧
      i ∈ issues := by
  have hi := mem_collectParse_issues schema raw K f i hmem hf
  refine ⟨(collectParse schema raw).2, ?_, hi⟩
  unfold parseWithDictionary
  have hne : ((collectParse schema raw).2).isEmpty = false := by
    cases hcp : (collectParse schema raw).2 with
    | nil => rw [hcp] at hi; cases hi
    | cons a l => rfl
  simp [hne]

theorem createEnv_ok_elim (opts : CreateEnvOptions)
    (initialEnv : Option (Obj String)) (procEnv : Obj String)
    (loaderParsed : Option (Obj String)) (r : CreateEnvOk)
    (hok : createEnv opts initialEnv procEnv loaderParsed = .ok r) :
    ∃ value,
      runValidation opts (rawEnvOf initialEnv procEnv loaderParsed) =
        .success value ∧
      r.env = combinedEnv opts.extendsArr value ∧
      r.procEnv = projectShared opts.shared r.env procEnv := by
  unfold createEnv createEnvFromRaw at hok
  cases hval : runValidation opts (rawEnvOf initialEnv procEnv loaderParsed) with
  | failure issues =>
    rw [hval] at hok
    exact absurd hok (by simp)
  | success value =>
    rw [hval] at hok
    refine ⟨value, rfl, ?_⟩
    cases hok
    exact ⟨rfl, rfl⟩

/-! ### The claims -/

/-- Claim C1: for every array of extended finalized containers and every
validated value of the current invocation, the combined environment of a
successful construction equals the fold that starts from an empty
accumulator, copies each extended container's keys in array order (later
containers overwriting earlier ones for the same key), and finally copies
the current invocation's validated value's keys, overwriting every key that
came from any extended container.  The second conjunct states the induced
key resolution: the validated value first, then later containers over
earlier ones. -/
theorem c1_combined_is_spec_fold (opts : CreateEnvOptions)
    (initialEnv : Option (Obj String)) (procEnv : Obj String)
    (loaderParsed : Option (Obj String)) (r : CreateEnvOk)
    (value : Obj EnvValue)
    (hok : createEnv opts initialEnv procEnv loaderParsed = .ok r)
    (hval : runValidation opts (rawEnvOf initialEnv procEnv loaderParsed) =
      .success value)
    (hv : NodupKeys value) (hexts : ∀ c ∈ opts.extendsArr, NodupKeys c) :
    r.env = specCombinedEnvironment opts.extendsArr value ∧
    ∀ k, lookupKey r.env k =
      (lookupKey value k).or (extLookup opts.extendsArr k) := by
  obtain ⟨value', hval', henv, _⟩ :=
    createEnv_ok_elim opts initialEnv procEnv loaderParsed r hok
  rw [hval] at hval'
  injection hval' with hvv
  subst hvv
  refine ⟨henv, fun k => ?_⟩
  rw [henv]
  exact lookupKey_combinedEnv _ _ _ hv hexts

/-- Witness for C1: a concrete successful construction with one extended
container and one defaulted schema key. -/
theorem c1_combined_is_spec_fold_witness :
    createEnv c1Opts (some []) [] none = .ok c1Res ∧
    (c1Res.env = specCombinedEnvironment c1Opts.extendsArr
        [("A", EnvValue.vStr "x")] ∧
      ∀ k, lookupKey c1Res.env k =
        (lookupKey [("A", EnvValue.vStr "x")] k).or
          (extLookup c1Opts.extendsArr k)) :=
  ⟨rfl,
    c1_combined_is_spec_fold c1Opts (some []) [] none c1Res
      [("A", EnvValue.vStr "x")] rfl rfl (by decide) (by decide)⟩

/-- Counterexample to Claim C2 as stated: with containers `A = \x7bK: "a"\x7d`
and `B = \x7bK: "b"\x7d` extended in that order and the current schema
assigning `K` the default `"d"` (raw input omits `K`), the constructed
container holds `"d"` — the current schema's default — even though `B`
defines `K`, so the claimed `B`-first precedence fails. -/
theorem c2_counterexample :
    (createEnv c2Opts (some []) [] none).toOption.map
        (fun r => lookupKey r.env "K") = some (some (EnvValue.vStr "d")) ∧
    lookupKey c2B "K" = some (EnvValue.vStr "b") ∧
    EnvValue.vStr "d" ≠ EnvValue.vStr "b" :=
  ⟨rfl, rfl, by decide⟩

/-- Claim C2 (amended): for containers `A` and `B` extended in that array
order, the final value of a key `K` equals the current validated value's own
entry for `K` whenever the validated value defines `K` (when the schema
assigns `K` a default, the validated value defines `K`, so the default wins
over both containers); only for keys the validated value does not define
does `B`'s value win over `A`'s. -/
theorem c2_amended_precedence (opts : CreateEnvOptions) (A B : Obj EnvValue)
    (hext : opts.extendsArr = [A, B]) (initialEnv : Option (Obj String))
    (procEnv : Obj String) (loaderParsed : Option (Obj String))
    (r : CreateEnvOk) (value : Obj EnvValue)
    (hok : createEnv opts initialEnv procEnv loaderParsed = .ok r)
    (hval : runValidation opts (rawEnvOf initialEnv procEnv loaderParsed) =
      .success value)
    (hv : NodupKeys value) (hA : NodupKeys A) (hB : NodupKeys B) (K : Key) :
    lookupKey r.env K =
      (lookupKey value K).or ((lookupKey B K).or (lookupKey A K)) := by
  obtain ⟨value', hval', henv, _⟩ :=
    createEnv_ok_elim opts initialEnv procEnv loaderParsed r hok
  rw [hval] at hval'
  injection hval' with hvv
  subst hvv
  have hAB : ∀ c ∈ opts.extendsArr, NodupKeys c := by
    rw [hext]
    intro c hc
    rcases List.mem_cons.mp hc with rfl | hc'
    · exact hA
    · rcases List.mem_cons.mp hc' with rfl | hc''
      · exact hB
      · cases hc''
  have hres := lookupKey_combinedEnv opts.extendsArr value K hv hAB
  rw [henv, hres, hext]
  simp [extLookup]

/-- Witness for C2 (amended): the concrete precedence scenario, where the
validated value's default `"d"` is the final value of `K`. -/
theorem c2_amended_precedence_witness :
    createEnv c2Opts (some []) [] none = .ok c2Res ∧
    lookupKey c2Res.env "K" =
      (lookupKey [("K", EnvValue.vStr "d")] "K").or
        ((lookupKey c2B "K").or (lookupKey c2A "K")) :=
  ⟨rfl,
    c2_amended_precedence c2Opts c2A c2B rfl (some []) [] none c2Res
      [("K", EnvValue.vStr "d")] rfl rfl (by decide) (by decide) (by decide)
      "K"⟩

/-- Claim C3: for every constructed container and every key `K`: if `K` is a
key of the combined environment, reading `K` returns the stored value
unchanged; if `K` is not a key of the combined environment, reading `K`
fails with an `InvalidEnvironmentError` whose message identifies `K` as
undefined in the schema (the key appears verbatim inside the message). -/
theorem c3_guarded_read (opts : CreateEnvOptions)
    (initialEnv : Option (Obj String)) (procEnv : Obj String)
    (loaderParsed : Option (Obj String)) (r : CreateEnvOk)
    (hok : createEnv opts initialEnv procEnv loaderParsed = .ok r)
    (k : Key) :
    (∀ v, lookupKey r.env k = some v → containerGet r.env k = .ok v) ∧
    (lookupKey r.env k = none →
      containerGet r.env k =
        .error { message := accessErrorMessage k, cause := [] } ∧
      ∃ pre post, accessErrorMessage k = pre ++ (k ++ post)) := by
  constructor
  · intro v hvk
    unfold containerGet
    rw [hvk]
  · intro hnone
    refine ⟨by unfold containerGet; rw [hnone], ?_⟩
    exact ⟨"Attempted to access an invalid environment variable: \"",
      "\". This variable is not defined in your schema.", rfl⟩

/-- Witness for C3: on a concrete container, reading the declared key `A`
returns its value and reading the undeclared key `Z` fails with the
undefined-key error. -/
theorem c3_guarded_read_witness :
    createEnv c3Opts (some []) [] none = .ok c3Res ∧
    containerGet c3Res.env "A" = .ok (EnvValue.vStr "x") ∧
    containerGet c3Res.env "Z" =
      .error { message := accessErrorMessage "Z", cause := [] } :=
  ⟨rfl,
    (c3_guarded_read c3Opts (some []) [] none c3Res rfl "A").1
      (EnvValue.vStr "x") rfl,
    ((c3_guarded_read c3Opts (some []) [] none c3Res rfl "Z").2 rfl).1⟩

/-- Claim C4: for every constructed container and every key `K` (existing or
not), any write of `K` and any delete of `K` fail with an
`InvalidEnvironmentError` identifying `K` (the key appears verbatim inside
the message) and stating that environment variables are immutable, and the
container's values are unchanged afterward. -/
theorem c4_immutable_container (opts : CreateEnvOptions)
    (initialEnv : Option (Obj String)) (procEnv : Obj String)
    (loaderParsed : Option (Obj String)) (r : CreateEnvOk)
    (hok : createEnv opts initialEnv procEnv loaderParsed = .ok r)
    (k : Key) (v : EnvValue) :
    containerSet r.env k v =
      .error { message := setErrorMessage k, cause := [] } ∧
    containerDelete r.env k =
      .error { message := deleteErrorMessage k, cause := [] } ∧
    (∃ pre post, setErrorMessage k = pre ++ (k ++ post)) ∧
    (∃ pre post, deleteErrorMessage k = pre ++ (k ++ post)) ∧
    afterMutation r.env (containerSet r.env k v) = r.env ∧
    afterMutation r.env (containerDelete r.env k) = r.env :=
  ⟨rfl, rfl,
    ⟨"Attempted to set environment variable: \"",
      "\". Environment variables are immutable.", rfl⟩,
    ⟨"Attempted to delete environment variable: \"",
      "\". Environment variables are immutable.", rfl⟩,
    rfl, rfl⟩

/-- Witness for C4: a concrete constructed container on which a write and a
delete of the existing key `A` both fail and leave the values unchanged. -/
theorem c4_immutable_container_witness :
    createEnv c4Opts (some []) [] none = .ok c4Res ∧
    (containerSet c4Res.env "A" (EnvValue.vStr "z") =
        .error { message := setErrorMessage "A", cause := [] } ∧
      containerDelete c4Res.env "A" =
        .error { message := deleteErrorMessage "A", cause := [] } ∧
      (∃ pre post, setErrorMessage "A" = pre ++ ("A" ++ post)) ∧
      (∃ pre post, deleteErrorMessage "A" = pre ++ ("A" ++ post)) ∧
      afterMutation c4Res.env (containerSet c4Res.env "A" (EnvValue.vStr "z")) =
        c4Res.env ∧
      afterMutation c4Res.env (containerDelete c4Res.env "A") = c4Res.env) :=
  ⟨rfl,
    c4_immutable_container c4Opts (some []) [] none c4Res rfl "A"
      (EnvValue.vStr "z")⟩

/-- Claim C5: for every raw input that fails schema validation, construction
fails with an `InvalidEnvironmentError` that carries the full, unmodified
issue list as its cause, and no container is returned; moreover (second
conjunct) a schema field whose validator rejects its raw value — in
particular a required key absent from the raw input — makes the dictionary
validation fail with that field's issue in the list. -/
theorem c5_validation_failure (opts : CreateEnvOptions)
    (initialEnv : Option (Obj String)) (procEnv : Obj String)
    (loaderParsed : Option (Obj String)) :
    (∀ issues,
      runValidation opts (rawEnvOf initialEnv procEnv loaderParsed) =
        .failure issues →
      createEnv opts initialEnv procEnv loaderParsed =
        .error { message := "Invalid environment variables detected.",
                 cause := issues } ∧
      ∀ r, createEnv opts initialEnv procEnv loaderParsed ≠ .ok r) ∧
    (∀ K f i, opts.createFinalSchema = none → (K, f) ∈ opts.schema →
      f (lookupKey (rawEnvOf initialEnv procEnv loaderParsed) K) =
        .invalid i →
      ∃ issues,
        runValidation opts (rawEnvOf initialEnv procEnv loaderParsed) =
          .failure issues ∧ i ∈ issues) := by
  constructor
  · intro issues hfail
    constructor
    · unfold createEnv createEnvFromRaw
      rw [hfail]
    · intro r hr
      unfold createEnv createEnvFromRaw at hr
      rw [hfail] at hr
      exact absurd hr (by simp)
  · intro K f i hnone hmem hf
    unfold runValidation
    rw [hnone]
    exact parseWithDictionary_invalid opts.schema _ K f i hmem hf

/-- Witness for C5: a schema requiring key `R` validated against an empty
raw mapping: construction fails and the cause is the full issue list. -/
theorem c5_validation_failure_witness :
    createEnv c5Opts (some []) [] none =
      .error { message := "Invalid environment variables detected.",
               cause := [{ message := "Required", path := ["R"] }] } ∧
    (∃ issues,
      runValidation c5Opts (rawEnvOf (some []) [] none) = .failure issues ∧
      ({ message := "Required", path := ["R"] } : Issue) ∈ issues) :=
  ⟨((c5_validation_failure c5Opts (some []) [] none).1
      [{ message := "Required", path := ["R"] }] rfl).1,
    (c5_validation_failure c5Opts (some []) [] none).2 "R"
      (requiredField "R") { message := "Required", path := ["R"] } rfl
      (List.mem_cons_self _ _) rfl⟩

/-- Claim C6: after every successful construction, for every key `K` of the
combined environment: if `K` is in the caller-supplied shared set, the
global environment table maps `K` to the string representation of `K`'s
combined value; otherwise `K` is absent from the global environment
table. -/
theorem c6_shared_projection (opts : CreateEnvOptions)
    (initialEnv : Option (Obj String)) (procEnv : Obj String)
    (loaderParsed : Option (Obj String)) (r : CreateEnvOk)
    (hok : createEnv opts initialEnv procEnv loaderParsed = .ok r)
    (K : Key) (v : EnvValue) (hK : lookupKey r.env K = some v) :
    (opts.shared.contains K = true →
      lookupKey r.procEnv K = some v.jsString) ∧
    (opts.shared.contains K = false → lookupKey r.procEnv K = none) := by
  obtain ⟨value, hval, henv, hproc⟩ :=
    createEnv_ok_elim opts initialEnv procEnv loaderParsed r hok
  have hn : NodupKeys r.env := henv ▸ nodupKeys_combinedEnv _ _
  have hlook :=
    projectShared_lookup_of_some opts.shared r.env procEnv K v hn hK
  rw [hproc]
  constructor
  · intro hc
    rw [hlook, if_pos hc]
  · intro hc
    rw [hlook, if_neg (by rw [hc]; exact Bool.false_ne_true)]

/-- Witness for C6: shared key `X` is mirrored as a string into the global
table, non-shared key `Y` is removed from it. -/
theorem c6_shared_projection_witness :
    createEnv c6Opts (some []) [("Y", "old"), ("Z", "keep")] none =
      .ok c6Res ∧
    lookupKey c6Res.procEnv "X" = some ((EnvValue.vStr "v").jsString) ∧
    lookupKey c6Res.procEnv "Y" = none :=
  ⟨rfl,
    (c6_shared_projection c6Opts (some []) [("Y", "old"), ("Z", "keep")]
        none c6Res rfl "X" (EnvValue.vStr "v") rfl).1 rfl,
    (c6_shared_projection c6Opts (some []) [("Y", "old"), ("Z", "keep")]
        none c6Res rfl "Y" (EnvValue.vStr "w") rfl).2 rfl⟩

/-- Claim C7: when an explicit raw mapping is supplied as the second
argument, the supplied mapping is the raw environment verbatim (no merge
with the ambient table), the result does not depend on the loader's output
in any way (the loader, hence any `path` option, is ignored), and the
returned container does not depend on the ambient table either. -/
theorem c7_explicit_raw_bypasses_loader (opts : CreateEnvOptions)
    (ie : Obj String) (procEnv procEnv2 : Obj String)
    (loaderParsed loaderParsed2 : Option (Obj String)) :
    rawEnvOf (some ie) procEnv loaderParsed = ie ∧
    createEnv opts (some ie) procEnv loaderParsed =
      createEnv opts (some ie) procEnv loaderParsed2 ∧
    Except.map CreateEnvOk.env (createEnv opts (some ie) procEnv loaderParsed) =
      Except.map CreateEnvOk.env
        (createEnv opts (some ie) procEnv2 loaderParsed2) := by
  refine ⟨rfl, rfl, ?_⟩
  unfold createEnv createEnvFromRaw rawEnvOf
  cases runValidation opts ie <;> rfl

/-- Claim C8: when no explicit raw mapping is supplied, the raw environment
passed to validation equals the ambient global environment table merged with
the file loader's parsed output, the loader's values overriding ambient
values for the same key. -/
theorem c8_ambient_loader_merge (opts : CreateEnvOptions)
    (procEnv p : Obj String) (hp : NodupKeys p) :
    rawEnvOf none procEnv (some p) = assignObj procEnv p ∧
    (∀ k, lookupKey (rawEnvOf none procEnv (some p)) k =
      (lookupKey p k).or (lookupKey procEnv k)) ∧
    createEnv opts none procEnv (some p) =
      createEnvFromRaw opts (assignObj procEnv p) procEnv := by
  refine ⟨rfl, fun k => ?_, rfl⟩
  show lookupKey (assignObj procEnv p) k = _
  exact lookupKey_assignObj procEnv p k hp

/-- Witness for C8: ambient `A = "0", B = "2"` merged with loader output
`A = "1"`; the loader's `A` wins and the ambient `B` survives. -/
theorem c8_ambient_loader_merge_witness :
    NodupKeys [("A", "1")] ∧
    (rawEnvOf none [("A", "0"), ("B", "2")] (some [("A", "1")]) =
        assignObj [("A", "0"), ("B", "2")] [("A", "1")] ∧
      (∀ k, lookupKey (rawEnvOf none [("A", "0"), ("B", "2")]
          (some [("A", "1")])) k =
        (lookupKey [("A", "1")] k).or
          (lookupKey [("A", "0"), ("B", "2")] k)) ∧
      createEnv c8Opts none [("A", "0"), ("B", "2")] (some [("A", "1")]) =
        createEnvFromRaw c8Opts
          (assignObj [("A", "0"), ("B", "2")] [("A", "1")])
          [("A", "0"), ("B", "2")]) :=
  ⟨by decide,
    c8_ambient_loader_merge c8Opts [("A", "0"), ("B", "2")] [("A", "1")]
      (by decide)⟩

/-- Claim C9: constructing twice from identical inputs (same explicit raw
mapping, same schema, same extends array, same shared set) succeeds again,
yields a container with identical readable values, and leaves the global
environment table in the identical projected state. -/
theorem c9_idempotent_construction (opts : CreateEnvOptions)
    (ie : Obj String) (procEnv : Obj String)
    (loaderParsed : Option (Obj String)) (r1 : CreateEnvOk)
    (h1 : createEnv opts (some ie) procEnv loaderParsed = .ok r1) :
    ∃ r2, createEnv opts (some ie) r1.procEnv loaderParsed = .ok r2 ∧
      r2.env = r1.env ∧
      (∀ k, containerGet r2.env k = containerGet r1.env k) ∧
      (∀ q, lookupKey r2.procEnv q = lookupKey r1.procEnv q) := by
  obtain ⟨value, hval, henv, hproc⟩ :=
    createEnv_ok_elim opts (some ie) procEnv loaderParsed r1 h1
  have hval' : runValidation opts ie = .success value := hval
  refine ⟨{ env := combinedEnv opts.extendsArr value,
            procEnv := projectShared opts.shared
              (combinedEnv opts.extendsArr value) r1.procEnv }, ?_, ?_, ?_, ?_⟩
  · show createEnvFromRaw opts ie r1.procEnv = _
    unfold createEnvFromRaw
    rw [hval']
  · exact henv.symm
  · intro k
    rw [henv]
  · intro q
    show lookupKey (projectShared opts.shared
      (combinedEnv opts.extendsArr value) r1.procEnv) q = _
    rw [hproc, henv]
    exact projectShared_idem opts.shared (combinedEnv opts.extendsArr value)
      procEnv q (nodupKeys_combinedEnv _ _)

/-- Witness for C9: a concrete second construction from the same inputs
reproduces the same container and the same global-table projection. -/
theorem c9_idempotent_construction_witness :
    createEnv c9Opts (some []) [("Y", "old")] none = .ok c9Res ∧
    (∃ r2, createEnv c9Opts (some []) c9Res.procEnv none = .ok r2 ∧
      r2.env = c9Res.env ∧
      (∀ k, containerGet r2.env k = containerGet c9Res.env k) ∧
      (∀ q, lookupKey r2.procEnv q = lookupKey c9Res.procEnv q)) :=
  ⟨rfl,
    c9_idempotent_construction c9Opts [] [("Y", "old")] none c9Res rfl⟩

/-- Claim C10: the environment projection only touches global-table entries
for keys present in the combined environment: every key of the global table
that is not a key of the combined environment has the same value after
construction as before. -/
theorem c10_projection_frame (opts : CreateEnvOptions)
    (initialEnv : Option (Obj String)) (procEnv : Obj String)
    (loaderParsed : Option (Obj String)) (r : CreateEnvOk)
    (hok : createEnv opts initialEnv procEnv loaderParsed = .ok r)
    (q : Key) (hq : lookupKey r.env q = none) :
    lookupKey r.procEnv q = lookupKey procEnv q := by
  obtain ⟨value, hval, henv, hproc⟩ :=
    createEnv_ok_elim opts initialEnv procEnv loaderParsed r hok
  rw [hproc]
  exact projectShared_lookup_of_none opts.shared r.env procEnv q hq

/-- Witness for C10: the foreign key `Z` of the ambient table survives a
construction whose combined environment does not contain it. -/
theorem c10_projection_frame_witness :
    createEnv c10Opts (some []) [("Z", "keep")] none = .ok c10Res ∧
    lookupKey c10Res.env "Z" = none ∧
    lookupKey c10Res.procEnv "Z" = lookupKey [("Z", "keep")] "Z" :=
  ⟨rfl, rfl,
    c10_projection_frame c10Opts (some []) [("Z", "keep")] none c10Res rfl
      "Z" rfl⟩

end ProcessVenv
